import Mathlib

/-!
Verification development for the factory-floor-designer repository.

The file embeds the data store (src/src/store/designStore.ts), the interactive
placement check (src/src/components/ObjectPlacement.tsx) and the camera /
viewport controller of the final Canvas draft (src/src/components/Canvas.tsx)
as executable Lean definitions, and proves or refutes the specified properties
about them.

Modelling conventions:
* TypeScript numbers that the program uses as grid coordinates, dimensions and
  rotations are embedded as `Int` (the spec requires them to be integers).
* Camera zoom and positions are embedded as `ℚ`; the only irrational constant
  the source uses, `Math.cos(Math.PI / 4)`, is replaced by the decimal value of
  its IEEE double; none of the proved properties depends on its exact value.
* Ids generated from `Date.now()` and `Math.random()` are modelled by an
  uninterpreted generator `gen : Nat → String` threaded through the store
  together with a counter, so theorems quantify over every possible id stream.
* JSON serialisation is structural: `JSON.stringify` / `JSON.parse` of the
  export record is the identity on the embedded record type, so
  `exportFloorPlan` produces the parsed form directly and
  `importFloorPlanFromJSON` consumes an `Option ImportData`, `none` standing
  for a string `JSON.parse` rejects.
-/

namespace FFD

/-! ## Data model (designStore.ts lines 4-28) -/

structure ObjectDimensions where
  x : Int
  y : Int
  z : Int
  deriving DecidableEq, Repr

structure Position3 where
  x : Int
  y : Int
  z : Int
  deriving DecidableEq, Repr

/-- A library object (designStore.ts `FactoryObject`; the optional
`position`/`rotation` fields are never set on library entries and are
omitted). -/
structure FactoryObject where
  id : String
  name : String
  dimensions : ObjectDimensions
  color : String
  deriving DecidableEq, Repr

/-- One entry of `FloorPlan.objects` (designStore.ts lines 23-27). -/
structure PlacedObject where
  objectId : String
  position : Position3
  rotation : Int
  deriving DecidableEq, Repr

structure FloorPlan where
  id : String
  name : String
  objects : List PlacedObject
  deriving DecidableEq, Repr

/-- The zustand store state (designStore.ts lines 30-36), extended with the
id-generation source: `gen`/`ctr` model the `Date.now()`+`Math.random()`
strings used by `addObject`, `duplicateObject` and `addFloorPlan`. -/
structure DesignState where
  objectLibrary : List FactoryObject
  floorPlans : List FloorPlan
  activeFloorPlanId : Option String
  gen : Nat → String
  ctr : Nat

def defaultMill : FactoryObject :=
  ⟨"default-mill", "Mill", ⟨4, 4, 8⟩, "#aaaaaa"⟩

def defaultWall : FactoryObject :=
  ⟨"default-wall", "Wall", ⟨2, 1, 1⟩, "#9b9b9b"⟩

/-- Initial store state (designStore.ts lines 60-77). -/
def initialDesignState (gen : Nat → String) : DesignState :=
  ⟨[defaultMill, defaultWall], [], none, gen, 0⟩

/-- The id `addObject`/`duplicateObject` will stamp on the next created
object: `object-${Date.now()}-${Math.random()...}`. -/
def freshObjectId (s : DesignState) : String :=
  "object-" ++ s.gen s.ctr

/-- The id `addFloorPlan` will stamp on the next created plan. -/
def freshFloorPlanId (s : DesignState) : String :=
  "floorplan-" ++ s.gen s.ctr

/-! ## Object actions (designStore.ts lines 80-109) -/

/-- designStore.ts lines 80-85. -/
def addObject (s : DesignState) (name : String) (dimensions : ObjectDimensions)
    (color : String) : DesignState :=
  { s with
    objectLibrary := s.objectLibrary ++ [⟨freshObjectId s, name, dimensions, color⟩],
    ctr := s.ctr + 1 }

/-- The `Partial<FactoryObject>` argument of `updateObject`: any subset of the
fields may be present. -/
structure ObjectUpdates where
  id : Option String := none
  name : Option String := none
  dimensions : Option ObjectDimensions := none
  color : Option String := none
  deriving DecidableEq, Repr

/-- The spread `{ ...obj, ...updates }`. -/
def applyObjectUpdates (obj : FactoryObject) (u : ObjectUpdates) : FactoryObject :=
  ⟨u.id.getD obj.id, u.name.getD obj.name,
   u.dimensions.getD obj.dimensions, u.color.getD obj.color⟩

/-- designStore.ts lines 87-91. -/
def updateObject (s : DesignState) (id : String) (u : ObjectUpdates) : DesignState :=
  { s with
    objectLibrary := s.objectLibrary.map (fun obj =>
      if obj.id == id then applyObjectUpdates obj u else obj) }

/-- designStore.ts lines 93-95. -/
def deleteObject (s : DesignState) (id : String) : DesignState :=
  { s with objectLibrary := s.objectLibrary.filter (fun obj => obj.id != id) }

/-- designStore.ts lines 97-109. -/
def duplicateObject (s : DesignState) (id : String) : DesignState :=
  match s.objectLibrary.find? (fun obj => obj.id == id) with
  | none => s
  | some object =>
      { s with
        objectLibrary := s.objectLibrary ++
          [{ object with id := freshObjectId s, name := object.name ++ " (Copy)" }],
        ctr := s.ctr + 1 }

/-! ## Floor-plan actions (designStore.ts lines 112-148) -/

/-- designStore.ts lines 112-125; the TS action also returns the new plan id,
so the embedding returns the pair. -/
def addFloorPlan (s : DesignState) (name : String) : String × DesignState :=
  let fid := freshFloorPlanId s
  (fid,
   { s with
     floorPlans := s.floorPlans ++ [⟨fid, name, []⟩],
     activeFloorPlanId := some fid,
     ctr := s.ctr + 1 })

/-- The `Partial<FloorPlan>` argument of `updateFloorPlan`. -/
structure FloorPlanUpdates where
  id : Option String := none
  name : Option String := none
  objects : Option (List PlacedObject) := none
  deriving DecidableEq, Repr

def applyFloorPlanUpdates (pl : FloorPlan) (u : FloorPlanUpdates) : FloorPlan :=
  ⟨u.id.getD pl.id, u.name.getD pl.name, u.objects.getD pl.objects⟩

/-- designStore.ts lines 127-131. -/
def updateFloorPlan (s : DesignState) (id : String) (u : FloorPlanUpdates) : DesignState :=
  { s with
    floorPlans := s.floorPlans.map (fun pl =>
      if pl.id == id then applyFloorPlanUpdates pl u else pl) }

/-- designStore.ts lines 133-146. -/
def deleteFloorPlan (s : DesignState) (id : String) : DesignState :=
  let remaining := s.floorPlans.filter (fun pl => pl.id != id)
  if s.activeFloorPlanId = some id then
    { s with
      floorPlans := remaining,
      activeFloorPlanId := match remaining with
        | [] => none
        | pl :: _ => some pl.id }
  else
    { s with floorPlans := remaining }

/-- designStore.ts line 148. -/
def setActiveFloorPlan (s : DesignState) (id : String) : DesignState :=
  { s with activeFloorPlanId := some id }

/-- designStore.ts lines 151-169: append a placement to every plan whose id is
the active id; a missing active id makes the call a no-op. -/
def importObject (s : DesignState) (objectId : String) (position : Position3)
    (rotation : Int) : DesignState :=
  match s.activeFloorPlanId with
  | none => s
  | some activeId =>
      { s with
        floorPlans := s.floorPlans.map (fun pl =>
          if pl.id == activeId then
            { pl with objects := pl.objects ++ [⟨objectId, position, rotation⟩] }
          else pl) }

/-- `objects.filter((_, index) => index !== i)`: keep entries whose index
differs from the removed one. -/
def filterOutIndex (objs : List PlacedObject) (idx : Nat) : List PlacedObject :=
  (objs.enum.filter (fun q => q.1 != idx)).map (fun q => q.2)

/-- designStore.ts lines 171-180. -/
def removeObjectFromFloorPlan (s : DesignState) (floorPlanId : String)
    (placedObjectIndex : Nat) : DesignState :=
  { s with
    floorPlans := s.floorPlans.map (fun pl =>
      if pl.id == floorPlanId then
        { pl with objects := filterOutIndex pl.objects placedObjectIndex }
      else pl) }

/-! ## Import / export (designStore.ts lines 183-264) -/

/-- One element of the parsed `data.objects` array as the import code reads
it: `name` and `dimensions` are accessed unconditionally (entries missing them
make the handler throw and are outside every claim's scope), while `color`,
`position` and `rotation` are guarded by `||` / truthiness checks and are
therefore optional. The serialised `id` field is ignored by the import. -/
structure ImportEntry where
  name : String
  dimensions : ObjectDimensions
  color : Option String
  position : Option Position3
  rotation : Option Int
  deriving DecidableEq, Repr

/-- The parsed top-level import value: `data.name` may be absent (or any falsy
value, represented by `some ""`), `data.objects` may fail `Array.isArray`. -/
structure ImportData where
  name : Option String
  objects : Option (List ImportEntry)
  deriving DecidableEq, Repr

/-- JavaScript truthiness of `data.name` restricted to strings. -/
def jsTruthyName : Option String → Bool
  | none => false
  | some str => str != ""

/-- `obj.color || '#aaaaaa'` (designStore.ts line 235). -/
def jsColorOrDefault : Option String → String
  | none => "#aaaaaa"
  | some c => if c == "" then "#aaaaaa" else c

/-- The library lookup predicate used twice by the import (designStore.ts
lines 219-224 and 241-246): same name and same x, y, z dimensions. -/
def entryMatches (e : ImportEntry) (libObj : FactoryObject) : Bool :=
  libObj.name == e.name &&
  libObj.dimensions.x == e.dimensions.x &&
  libObj.dimensions.y == e.dimensions.y &&
  libObj.dimensions.z == e.dimensions.z

/-- `if (objectId && obj.position) { importObject(...) }` (designStore.ts
lines 251-258): place only when the id string is truthy and a position is
present; `obj.rotation || 0` collapses to `Option.getD 0` on integers. -/
def placeImportedEntry (s : DesignState) (objectId : String) (e : ImportEntry) :
    DesignState :=
  match e.position with
  | none => s
  | some p =>
      if objectId == "" then s
      else importObject s objectId p (e.rotation.getD 0)

/-- The body of the per-entry `forEach` (designStore.ts lines 217-259). -/
def processImportEntry (s : DesignState) (e : ImportEntry) : DesignState :=
  match s.objectLibrary.find? (entryMatches e) with
  | some existingObject => placeImportedEntry s existingObject.id e
  | none =>
      let s' := addObject s e.name e.dimensions (jsColorOrDefault e.color)
      match s'.objectLibrary.find? (entryMatches e) with
      | some newObject => placeImportedEntry s' newObject.id e
      | none => s'

/-- designStore.ts lines 205-264.  `none` input = the string failed
`JSON.parse`; all rejections are swallowed by the `catch` and leave the state
untouched. -/
def importFloorPlanFromJSON (s : DesignState) (input : Option ImportData) :
    DesignState :=
  match input with
  | none => s
  | some data =>
      if jsTruthyName data.name then
        match data.objects with
        | none => s
        | some objs =>
            let s1 := (addFloorPlan s (data.name.getD "")).2
            objs.foldl processImportEntry s1
      else s

/-- The per-placement export record (designStore.ts lines 192-199):
`{ ...objectDetails, position, rotation }`.  A placement whose `objectId` does
not resolve serialises without `name`/`dimensions` in the source and would
make a re-import throw; such placements are excluded by hypothesis in every
round-trip theorem, and the embedding drops them. -/
def exportEntry (lib : List FactoryObject) (p : PlacedObject) : Option ImportEntry :=
  (lib.find? (fun obj => obj.id == p.objectId)).map (fun d =>
    ⟨d.name, d.dimensions, some d.color, some p.position, some p.rotation⟩)

/-- designStore.ts lines 183-203; `none` = the plan id was not found (the
source returns the empty string, which `JSON.parse` rejects). -/
def exportFloorPlan (s : DesignState) (id : String) : Option ImportData :=
  (s.floorPlans.find? (fun pl => pl.id == id)).map (fun floorPlan =>
    ⟨some floorPlan.name,
     some (floorPlan.objects.filterMap (exportEntry s.objectLibrary))⟩)

/-! ## Store operations as a single step type (for frame properties) -/

inductive DesignOp where
  | addObject (name : String) (dimensions : ObjectDimensions) (color : String)
  | updateObject (id : String) (u : ObjectUpdates)
  | deleteObject (id : String)
  | duplicateObject (id : String)
  | addFloorPlan (name : String)
  | updateFloorPlan (id : String) (u : FloorPlanUpdates)
  | deleteFloorPlan (id : String)
  | setActiveFloorPlan (id : String)
  | importObject (objectId : String) (position : Position3) (rotation : Int)
  | removeObjectFromFloorPlan (floorPlanId : String) (placedObjectIndex : Nat)
  | importFloorPlanFromJSON (input : Option ImportData)

def applyDesignOp (s : DesignState) : DesignOp → DesignState
  | .addObject name dims color => addObject s name dims color
  | .updateObject id u => updateObject s id u
  | .deleteObject id => deleteObject s id
  | .duplicateObject id => duplicateObject s id
  | .addFloorPlan name => (addFloorPlan s name).2
  | .updateFloorPlan id u => updateFloorPlan s id u
  | .deleteFloorPlan id => deleteFloorPlan s id
  | .setActiveFloorPlan id => setActiveFloorPlan s id
  | .importObject objectId position rotation => importObject s objectId position rotation
  | .removeObjectFromFloorPlan fid idx => removeObjectFromFloorPlan s fid idx
  | .importFloorPlanFromJSON input => importFloorPlanFromJSON s input

/-- Whether a step is the (library-mutating) `updateObject` action. -/
def DesignOp.isUpdateObject : DesignOp → Bool
  | .updateObject _ _ => true
  | _ => false

/-! ## Interactive placement check (ObjectPlacement.tsx lines 50-57)

The component's `checkCollision` is the shipped placement-validity test.  Its
body is, verbatim apart from types:

    if (!activeFloorPlan || !object) return false;
    // This is a placeholder - real implementation would do actual collision
    // detection based on object dimensions and rotation
    return false; // For now, always allow placement

so it reports "no collision" for every input.  The component's x/z arguments
are the two ground-plane axes (y is always 0 there). -/

def checkCollision (x y z : Int) (object : Option FactoryObject) (rotation : Int)
    (activeFloorPlan : Option FloorPlan) : Bool :=
  match activeFloorPlan, object with
  | some _, some _ => false
  | _, _ => false

/-- `setIsValidPlacement(!hasCollision)` (ObjectPlacement.tsx lines 42-43). -/
def isValidPlacement (x y z : Int) (object : Option FactoryObject) (rotation : Int)
    (activeFloorPlan : Option FloorPlan) : Bool :=
  !(checkCollision x y z object rotation activeFloorPlan)

/-! ## Spec-side placement validity

Reference definitions written from spec.md section 4.2, to be compared with
the shipped `checkCollision` stub. -/

/-- An axis-aligned ground-plane rectangle: corner (x, y), extent (w, h). -/
structure GroundRect where
  x : Int
  y : Int
  w : Int
  h : Int
  deriving DecidableEq, Repr

/-- Spec: the footprint swaps the object's x/y dimensions at rotation 90 or
270. -/
def specFootprint (pos : Int × Int) (dims : ObjectDimensions) (rotation : Int) :
    GroundRect :=
  if rotation = 90 ∨ rotation = 270 then ⟨pos.1, pos.2, dims.y, dims.x⟩
  else ⟨pos.1, pos.2, dims.x, dims.y⟩

/-- Spec: the candidate footprint must lie fully within [0,5000]×[0,5000]. -/
def SpecInBounds (a : GroundRect) : Prop :=
  0 ≤ a.x ∧ a.x + a.w ≤ 5000 ∧ 0 ≤ a.y ∧ a.y + a.h ≤ 5000

/-- Spec: two axis-aligned rectangles overlap iff they overlap strictly on
both axes; touching edges (zero shared area) does not count. -/
def SpecOverlap (a b : GroundRect) : Prop :=
  a.x < b.x + b.w ∧ b.x < a.x + a.w ∧ a.y < b.y + b.h ∧ b.y < a.y + a.h

instance : DecidablePred SpecInBounds := fun a => by
  unfold SpecInBounds; infer_instance

instance (a : GroundRect) : DecidablePred (SpecOverlap a) := fun b => by
  unfold SpecOverlap; infer_instance

/-- Modelled from the spec: `isValidPlacement` of section 4.2 (the repository
ships only the placeholder above).  Valid iff in bounds and free of
positive-area overlap with every existing footprint. -/
def SpecValidPlacement (candidate : GroundRect) (existing : List GroundRect) : Prop :=
  SpecInBounds candidate ∧ ∀ r ∈ existing, ¬ SpecOverlap candidate r

instance (candidate : GroundRect) (existing : List GroundRect) :
    Decidable (SpecValidPlacement candidate existing) := by
  unfold SpecValidPlacement; infer_instance

/-! ## Canvas / viewport controller (final Canvas.tsx draft)

Constants from Canvas.tsx lines 271-292; camera state and its operations from
lines 294-998.  Zoom and positions are rationals; `ISO_COS` stands for the
IEEE-double value of `Math.cos(Math.PI / 4)` (= `Math.sin(Math.PI / 4)`). -/

def TOTAL_GRID_SIZE : ℚ := 5000

def MIN_ZOOM : ℚ := 1 / 10

def MAX_ZOOM : ℚ := 20

def DEFAULT_ZOOM : ℚ := 1

def ISO_COS : ℚ := 7071067811865476 / 10000000000000000

/-- A grid-density level (Canvas.tsx lines 282-292). -/
structure GridLevel where
  zoom : ℚ
  interval : Int
  subdivisions : Nat
  deriving DecidableEq, Repr

/-- Canvas.tsx lines 282-292, in source order (coarse to fine). -/
def GRID_LEVELS : List GridLevel :=
  [⟨15 / 100, 1000, 2⟩,
   ⟨3 / 10, 500, 5⟩,
   ⟨6 / 10, 250, 5⟩,
   ⟨12 / 10, 100, 5⟩,
   ⟨24 / 10, 50, 5⟩,
   ⟨48 / 10, 20, 2⟩,
   ⟨96 / 10, 10, 2⟩,
   ⟨14, 5, 5⟩,
   ⟨18, 1, 1⟩]

/-- The loop of `getCurrentGridLevel` (Canvas.tsx lines 392-402) runs from the
last (finest) level down to the first and returns the first level whose
threshold the zoom reaches. -/
def findLevelFromFinest : List GridLevel → ℚ → Option GridLevel
  | [], _ => none
  | l :: ls, zoom => if l.zoom ≤ zoom then some l else findLevelFromFinest ls zoom

/-- Canvas.tsx lines 392-402: scan `GRID_LEVELS` from finest to coarsest,
defaulting to the coarsest level when the zoom is below every threshold. -/
def getCurrentGridLevel (zoom : ℚ) : GridLevel :=
  (findLevelFromFinest GRID_LEVELS.reverse zoom).getD ⟨15 / 100, 1000, 2⟩

/-- Camera world position. -/
structure CamPos where
  x : ℚ
  y : ℚ
  z : ℚ
  deriving DecidableEq, Repr

/-- One view mode's saved camera state (Canvas.tsx lines 315-323). -/
structure ViewState where
  position : CamPos
  zoom : ℚ
  deriving DecidableEq, Repr

/-- The camera-relevant mutable state of the mounted Canvas component. -/
structure CanvasState where
  cameraPosition : CamPos
  cameraZoom : ℚ
  isIsometric : Bool
  isoView : ViewState
  birdsEyeView : ViewState
  deriving DecidableEq, Repr

/-- Canvas.tsx lines 335-350: `calculateIsometricPosition`. -/
def calculateIsometricPosition (targetX targetY : ℚ) : CamPos :=
  let distanceFromCenter := TOTAL_GRID_SIZE / 2
  let horizontalDist := distanceFromCenter * ISO_COS
  let verticalDist := distanceFromCenter * ISO_COS
  ⟨targetX - horizontalDist, targetY - horizontalDist, verticalDist⟩

/-- The initial/recenter position for a mode (Canvas.tsx lines 924-927 and
966-971, identical formulas). -/
def initialCameraPosition (isIso : Bool) : CamPos :=
  if isIso then
    calculateIsometricPosition (TOTAL_GRID_SIZE / 2) (TOTAL_GRID_SIZE / 2)
  else
    ⟨TOTAL_GRID_SIZE / 2, TOTAL_GRID_SIZE / 2, TOTAL_GRID_SIZE / 2⟩

/-- Read/replace the saved state of the currently active mode. -/
def CanvasState.currentSaved (s : CanvasState) : ViewState :=
  if s.isIsometric then s.isoView else s.birdsEyeView

def CanvasState.setCurrentSaved (s : CanvasState) (v : ViewState) : CanvasState :=
  if s.isIsometric then { s with isoView := v } else { s with birdsEyeView := v }

/-- One animation-loop pan application (Canvas.tsx lines 697-731): the camera
moves by a world-space vector computed from the accumulated screen drag and
the camera matrix (abstracted here as the parameter `v`), and the active
mode's saved position is synced to the new camera position. -/
def applyFramePan (s : CanvasState) (v : CamPos) : CanvasState :=
  let p := ⟨s.cameraPosition.x + v.x, s.cameraPosition.y + v.y, s.cameraPosition.z + v.z⟩
  (CanvasState.setCurrentSaved { s with cameraPosition := p }
    ⟨p, s.currentSaved.zoom⟩)

/-- One animation-loop zoom application (Canvas.tsx lines 738-756):
`newZoom = Math.max(MIN_ZOOM, Math.min(MAX_ZOOM, camera.zoom * zoomFactor))`,
applied (and mirrored into the active mode's saved zoom) only when it differs
from the current zoom.  `zoomFactor` abstracts `Math.pow(0.95, delta *
ZOOM_SENSITIVITY)`. -/
def applyFrameZoom (s : CanvasState) (zoomFactor : ℚ) : CanvasState :=
  let newZoom := max MIN_ZOOM (min MAX_ZOOM (s.cameraZoom * zoomFactor))
  if newZoom = s.cameraZoom then s
  else
    (CanvasState.setCurrentSaved { s with cameraZoom := newZoom }
      ⟨s.currentSaved.position, newZoom⟩)

/-- The `toggleView` callback (Canvas.tsx lines 876-905): save the outgoing
mode's position and zoom, flip the mode flag, restore the incoming mode's
saved position and zoom. -/
def toggleView (s : CanvasState) : CanvasState :=
  let saved := CanvasState.setCurrentSaved s ⟨s.cameraPosition, s.cameraZoom⟩
  let newIso := !s.isIsometric
  let target := if newIso then saved.isoView else saved.birdsEyeView
  { saved with
    isIsometric := newIso,
    cameraPosition := target.position,
    cameraZoom := target.zoom }

/-- The initial-camera-setup effect body (Canvas.tsx lines 908-958): build a
fresh camera at the current mode's initial position with the default zoom and
reset BOTH saved view states to that position and zoom.  Its dependency array
(line 958) lists `isIsometric`, so React re-runs it after every view toggle,
not only on mount. -/
def initialCameraSetup (s : CanvasState) : CanvasState :=
  let p := initialCameraPosition s.isIsometric
  { s with
    cameraPosition := p,
    cameraZoom := DEFAULT_ZOOM,
    isoView := ⟨p, DEFAULT_ZOOM⟩,
    birdsEyeView := ⟨p, DEFAULT_ZOOM⟩ }

/-- What one click of the toggle button does to the mounted component: the
`toggleView` callback runs, then (because `isIsometric` changed) the
orientation effect (which touches neither position nor zoom) and the
initial-camera-setup effect re-run. -/
def toggleViewRuntime (s : CanvasState) : CanvasState :=
  initialCameraSetup (toggleView s)

/-- `handleRecenter` (Canvas.tsx lines 961-998): default position and zoom for
the current mode; only the current mode's saved state is rewritten. -/
def handleRecenter (s : CanvasState) : CanvasState :=
  let p := initialCameraPosition s.isIsometric
  (CanvasState.setCurrentSaved
    { s with cameraPosition := p, cameraZoom := DEFAULT_ZOOM }
    ⟨p, DEFAULT_ZOOM⟩)

/-- The state right after mount: the setup effect has run once in the initial
(isometric) mode. -/
def initialCanvasState : CanvasState :=
  initialCameraSetup
    ⟨⟨TOTAL_GRID_SIZE / 2, TOTAL_GRID_SIZE / 2, TOTAL_GRID_SIZE / 4⟩, DEFAULT_ZOOM,
     true,
     ⟨⟨TOTAL_GRID_SIZE / 2, TOTAL_GRID_SIZE / 2, TOTAL_GRID_SIZE / 4⟩, DEFAULT_ZOOM⟩,
     ⟨⟨TOTAL_GRID_SIZE / 2, TOTAL_GRID_SIZE / 2, TOTAL_GRID_SIZE / 4⟩, DEFAULT_ZOOM⟩⟩

/-- Every user input that can change the camera. -/
inductive CanvasOp where
  | framePan (v : CamPos)
  | frameZoom (zoomFactor : ℚ)
  | toggle
  | recenter

def applyCanvasOp (s : CanvasState) : CanvasOp → CanvasState
  | .framePan v => applyFramePan s v
  | .frameZoom f => applyFrameZoom s f
  | .toggle => toggleViewRuntime s
  | .recenter => handleRecenter s

def runCanvas (ops : List CanvasOp) : CanvasState :=
  ops.foldl applyCanvasOp initialCanvasState

/-- All three zoom scalars the component stores. -/
def ZoomInvariant (s : CanvasState) : Prop :=
  MIN_ZOOM ≤ s.cameraZoom ∧ s.cameraZoom ≤ MAX_ZOOM ∧
  MIN_ZOOM ≤ s.isoView.zoom ∧ s.isoView.zoom ≤ MAX_ZOOM ∧
  MIN_ZOOM ≤ s.birdsEyeView.zoom ∧ s.birdsEyeView.zoom ≤ MAX_ZOOM

/-- A concrete id stream for evaluating the store on concrete inputs. -/
def testGen : Nat → String := fun n => toString n

/-! # Theorems -/

/-! ## C10: addFloorPlan -/

/-- C10: for every store state and name, `addFloorPlan` appends exactly one
new, empty floorplan carrying the given name, makes it active (displacing any
previous active id), and leaves the object library and all existing floorplans
unchanged. -/
theorem addFloorPlan_spec (s : DesignState) (name : String) :
    ((addFloorPlan s name).2).floorPlans
      = s.floorPlans ++ [⟨freshFloorPlanId s, name, []⟩]
    ∧ ((addFloorPlan s name).2).activeFloorPlanId = some (freshFloorPlanId s)
    ∧ ((addFloorPlan s name).2).objectLibrary = s.objectLibrary
    ∧ (addFloorPlan s name).1 = freshFloorPlanId s :=
  ⟨rfl, rfl, rfl, rfl⟩

/-! ## C1: placement-validity check -/

/-- C1: the shipped `checkCollision` is a placeholder that reports "no
collision" for every candidate, so `isValidPlacement` is `true` even for a
candidate that the specified rule rejects: a Mill (4×4) at ground position
(4998, 0) sticks out of the [0,5000] range, and a Mill at (0,0) has
positive-area overlap with an existing Mill footprint at (2,2); the spec-side
predicate rejects both, the code accepts both. -/
theorem checkCollision_stub_accepts_invalid_placements :
    checkCollision 4998 0 0 (some defaultMill) 0 (some ⟨"fp-1", "Plan", []⟩) = false
    ∧ isValidPlacement 4998 0 0 (some defaultMill) 0 (some ⟨"fp-1", "Plan", []⟩) = true
    ∧ ¬ SpecValidPlacement (specFootprint (4998, 0) defaultMill.dimensions 0) []
    ∧ checkCollision 0 0 0 (some defaultMill) 0
        (some ⟨"fp-1", "Plan", [⟨"default-mill", ⟨2, 0, 2⟩, 0⟩]⟩) = false
    ∧ ¬ SpecValidPlacement (specFootprint (0, 0) defaultMill.dimensions 0)
        [specFootprint (2, 2) defaultMill.dimensions 0] := by
  refine ⟨rfl, rfl, by decide, rfl, by decide⟩

/-! ## C5: import rejection leaves the store unchanged -/

/-- C5: a string `JSON.parse` rejects, a parsed value with a missing (or
falsy) `name`, or one whose `objects` is not an array, is rejected inside the
handler's `try`/`catch` and the whole store state — object library, floorplan
list, active id, id stream — is left exactly as it was. -/
theorem importFloorPlanFromJSON_rejects_invalid (s : DesignState)
    (input : Option ImportData)
    (h : input = none
      ∨ ∃ d, input = some d ∧ (jsTruthyName d.name = false ∨ d.objects = none)) :
    importFloorPlanFromJSON s input = s := by
  rcases h with rfl | ⟨d, rfl, h | h⟩
  · rfl
  · simp [importFloorPlanFromJSON, h]
  · simp [importFloorPlanFromJSON, h]

/-- Witness for C5 at a concrete rejected input. -/
theorem importFloorPlanFromJSON_rejects_invalid_witness :
    importFloorPlanFromJSON (initialDesignState testGen) none
      = initialDesignState testGen :=
  importFloorPlanFromJSON_rejects_invalid (initialDesignState testGen) none (Or.inl rfl)

/-! ## C4: view toggling -/

/-- C4: the `toggleView` callback alone would restore the pre-toggle camera
(first conjunct: starting isometric at position (100,200,300) with zoom 2,
two callback applications restore zoom 2 and the position), but the mounted
component also re-runs the initial-camera-setup effect after every toggle
(its dependency array lists `isIsometric`), which rebuilds the camera at the
mode default with zoom `DEFAULT_ZOOM` and wipes both saved view states; so
two real toggles leave the camera at the default, not at the held state. -/
theorem toggle_twice_resets_camera :
    (toggleView (toggleView ⟨⟨100, 200, 300⟩, 2, true, ⟨⟨100, 200, 300⟩, 2⟩,
        ⟨initialCameraPosition false, DEFAULT_ZOOM⟩⟩)).cameraZoom = 2
    ∧ (toggleView (toggleView ⟨⟨100, 200, 300⟩, 2, true, ⟨⟨100, 200, 300⟩, 2⟩,
        ⟨initialCameraPosition false, DEFAULT_ZOOM⟩⟩)).cameraPosition = ⟨100, 200, 300⟩
    ∧ (toggleViewRuntime (toggleViewRuntime ⟨⟨100, 200, 300⟩, 2, true,
        ⟨⟨100, 200, 300⟩, 2⟩, ⟨initialCameraPosition false, DEFAULT_ZOOM⟩⟩)).cameraZoom
      = DEFAULT_ZOOM
    ∧ (toggleViewRuntime (toggleViewRuntime ⟨⟨100, 200, 300⟩, 2, true,
        ⟨⟨100, 200, 300⟩, 2⟩, ⟨initialCameraPosition false, DEFAULT_ZOOM⟩⟩)).cameraPosition
      = initialCameraPosition true
    ∧ DEFAULT_ZOOM ≠ (2 : ℚ) := by
  refine ⟨rfl, rfl, rfl, rfl, by norm_num [DEFAULT_ZOOM]⟩

/-! ## C9: object definitions and store operations -/

lemma importObject_objectLibrary (s : DesignState) (oid : String) (p : Position3)
    (r : Int) : (importObject s oid p r).objectLibrary = s.objectLibrary := by
  unfold importObject
  cases s.activeFloorPlanId <;> rfl

lemma importObject_activeFloorPlanId (s : DesignState) (oid : String) (p : Position3)
    (r : Int) : (importObject s oid p r).activeFloorPlanId = s.activeFloorPlanId := by
  unfold importObject
  cases h : s.activeFloorPlanId
  · exact h
  · rfl

lemma placeImportedEntry_objectLibrary (s : DesignState) (oid : String)
    (e : ImportEntry) : (placeImportedEntry s oid e).objectLibrary = s.objectLibrary := by
  unfold placeImportedEntry
  cases e.position
  · rfl
  · dsimp only
    split
    · rfl
    · exact importObject_objectLibrary ..

lemma placeImportedEntry_activeFloorPlanId (s : DesignState) (oid : String)
    (e : ImportEntry) :
    (placeImportedEntry s oid e).activeFloorPlanId = s.activeFloorPlanId := by
  unfold placeImportedEntry
  cases e.position
  · rfl
  · dsimp only
    split
    · rfl
    · exact importObject_activeFloorPlanId ..

lemma deleteFloorPlan_objectLibrary (s : DesignState) (id : String) :
    (deleteFloorPlan s id).objectLibrary = s.objectLibrary := by
  unfold deleteFloorPlan
  split <;> rfl

/-- Each per-entry import step only ever appends to the object library. -/
lemma processImportEntry_library_sublist (s : DesignState) (e : ImportEntry) :
    s.objectLibrary.Sublist (processImportEntry s e).objectLibrary := by
  unfold processImportEntry
  cases s.objectLibrary.find? (entryMatches e)
  · dsimp only
    cases (addObject s e.name e.dimensions (jsColorOrDefault e.color)).objectLibrary.find?
        (entryMatches e)
    · exact List.sublist_append_left _ _
    · rw [placeImportedEntry_objectLibrary]
      exact List.sublist_append_left _ _
  · rw [placeImportedEntry_objectLibrary]

lemma foldl_processImportEntry_library_sublist (entries : List ImportEntry) :
    ∀ s : DesignState,
      s.objectLibrary.Sublist ((entries.foldl processImportEntry s).objectLibrary) := by
  induction entries with
  | nil => intro s; exact List.Sublist.refl _
  | cons e rest ih =>
      intro s
      exact (processImportEntry_library_sublist s e).trans (ih (processImportEntry s e))

lemma duplicateObject_library_sublist (s : DesignState) (id : String) :
    s.objectLibrary.Sublist (duplicateObject s id).objectLibrary := by
  unfold duplicateObject
  cases s.objectLibrary.find? (fun obj => obj.id == id)
  · exact List.Sublist.refl _
  · exact List.sublist_append_left _ _

lemma importFloorPlanFromJSON_library_sublist (s : DesignState)
    (input : Option ImportData) :
    s.objectLibrary.Sublist (importFloorPlanFromJSON s input).objectLibrary := by
  unfold importFloorPlanFromJSON
  cases input with
  | none => exact List.Sublist.refl _
  | some data =>
      dsimp only
      split
      · cases data.objects with
        | none => exact List.Sublist.refl _
        | some objs =>
            exact foldl_processImportEntry_library_sublist objs
              ((addFloorPlan s (data.name.getD "")).2)
      · exact List.Sublist.refl _

/-- C9 counterexample: the store exposes `updateObject`, and calling it on the
default library changes the Mill's dimensions in place — the library is not
immutable at the data-store layer. -/
theorem updateObject_mutates_dimensions :
    (updateObject (initialDesignState testGen) "default-mill"
        ⟨none, none, some ⟨9, 9, 9⟩, none⟩).objectLibrary
      = [⟨"default-mill", "Mill", ⟨9, 9, 9⟩, "#aaaaaa"⟩, defaultWall]
    ∧ (⟨9, 9, 9⟩ : ObjectDimensions) ≠ defaultMill.dimensions :=
  ⟨rfl, by decide⟩

/-- C9 amended: apart from `updateObject`, no store operation rewrites an
existing library entry: every other operation leaves the object library a
sublist of the old one (pure removals) or leaves the old library a sublist of
the new one (pure appends of freshly-built entries). -/
theorem non_update_ops_preserve_library_entries (s : DesignState) (op : DesignOp)
    (h : op.isUpdateObject = false) :
    (applyDesignOp s op).objectLibrary.Sublist s.objectLibrary
    ∨ s.objectLibrary.Sublist (applyDesignOp s op).objectLibrary := by
  cases op with
  | addObject name dims color => exact Or.inr (List.sublist_append_left _ _)
  | updateObject id u => simp [DesignOp.isUpdateObject] at h
  | deleteObject id => exact Or.inl (List.filter_sublist _)
  | duplicateObject id => exact Or.inr (duplicateObject_library_sublist s id)
  | addFloorPlan name => exact Or.inl (List.Sublist.refl _)
  | updateFloorPlan id u => exact Or.inl (List.Sublist.refl _)
  | deleteFloorPlan id =>
      rw [show (applyDesignOp s (.deleteFloorPlan id)).objectLibrary = s.objectLibrary
            from deleteFloorPlan_objectLibrary s id]
      exact Or.inl (List.Sublist.refl _)
  | setActiveFloorPlan id => exact Or.inl (List.Sublist.refl _)
  | importObject oid p r =>
      rw [show (applyDesignOp s (.importObject oid p r)).objectLibrary = s.objectLibrary
            from importObject_objectLibrary s oid p r]
      exact Or.inl (List.Sublist.refl _)
  | removeObjectFromFloorPlan fid idx => exact Or.inl (List.Sublist.refl _)
  | importFloorPlanFromJSON input =>
      exact Or.inr (importFloorPlanFromJSON_library_sublist s input)

/-- Witness for the amended C9 at a concrete non-update operation. -/
theorem non_update_ops_preserve_library_entries_witness :
    (applyDesignOp (initialDesignState testGen)
        (.deleteObject "default-wall")).objectLibrary.Sublist
      (initialDesignState testGen).objectLibrary
    ∨ (initialDesignState testGen).objectLibrary.Sublist
        (applyDesignOp (initialDesignState testGen)
          (.deleteObject "default-wall")).objectLibrary :=
  non_update_ops_preserve_library_entries (initialDesignState testGen)
    (.deleteObject "default-wall") rfl

/-! ## C8: zoom bounds -/

lemma zoomInvariant_setup (s : CanvasState) : ZoomInvariant (initialCameraSetup s) := by
  unfold ZoomInvariant initialCameraSetup MIN_ZOOM MAX_ZOOM DEFAULT_ZOOM
  norm_num

lemma zoomInvariant_initial : ZoomInvariant initialCanvasState :=
  zoomInvariant_setup _

lemma zoomInvariant_preserved (s : CanvasState) (op : CanvasOp)
    (h : ZoomInvariant s) : ZoomInvariant (applyCanvasOp s op) := by
  obtain ⟨h1, h2, h3, h4, h5, h6⟩ := h
  cases op with
  | framePan v =>
      rcases s with ⟨cp, cz, iso, isoV, birdV⟩
      cases iso <;>
        exact ⟨h1, h2, h3, h4, h5, h6⟩
  | frameZoom f =>
      rcases s with ⟨cp, cz, iso, isoV, birdV⟩
      have hmin : MIN_ZOOM ≤ max MIN_ZOOM (min MAX_ZOOM (cz * f)) := le_max_left _ _
      have hmax : max MIN_ZOOM (min MAX_ZOOM (cz * f)) ≤ MAX_ZOOM :=
        max_le (by norm_num [MIN_ZOOM, MAX_ZOOM]) (min_le_left _ _)
      cases iso <;> dsimp [applyCanvasOp, applyFrameZoom, CanvasState.setCurrentSaved] <;>
        split
      · exact ⟨h1, h2, h3, h4, h5, h6⟩
      · exact ⟨hmin, hmax, h3, h4, hmin, hmax⟩
      · exact ⟨h1, h2, h3, h4, h5, h6⟩
      · exact ⟨hmin, hmax, hmin, hmax, h5, h6⟩
  | toggle => exact zoomInvariant_setup (toggleView s)
  | recenter =>
      have hd1 : MIN_ZOOM ≤ DEFAULT_ZOOM := by norm_num [MIN_ZOOM, DEFAULT_ZOOM]
      have hd2 : DEFAULT_ZOOM ≤ MAX_ZOOM := by norm_num [MAX_ZOOM, DEFAULT_ZOOM]
      rcases s with ⟨cp, cz, iso, isoV, birdV⟩
      cases iso
      · exact ⟨hd1, hd2, h3, h4, hd1, hd2⟩
      · exact ⟨hd1, hd2, hd1, hd2, h5, h6⟩

lemma zoomInvariant_foldl (ops : List CanvasOp) :
    ∀ s : CanvasState, ZoomInvariant s → ZoomInvariant (ops.foldl applyCanvasOp s) := by
  induction ops with
  | nil => intro s h; exact h
  | cons op rest ih => intro s h; exact ih _ (zoomInvariant_preserved s op h)

/-- C8: from the default camera state, no sequence of camera inputs — frame
pans, accumulated-wheel zoom applications (any multiplicative factor), view
toggles, recenters — can drive the camera zoom outside [MIN_ZOOM, MAX_ZOOM]
(0.1 to 20); the two per-mode saved zooms respect the same bounds, so the
zoom a toggle restores is itself always in bounds. -/
theorem zoom_always_bounded (ops : List CanvasOp) :
    MIN_ZOOM ≤ (runCanvas ops).cameraZoom ∧ (runCanvas ops).cameraZoom ≤ MAX_ZOOM :=
  ⟨(zoomInvariant_foldl ops initialCanvasState zoomInvariant_initial).1,
   (zoomInvariant_foldl ops initialCanvasState zoomInvariant_initial).2.1⟩

/-! ## C7: grid-level selection -/

lemma grid_levels_reverse :
    GRID_LEVELS.reverse =
      [⟨18, 1, 1⟩, ⟨14, 5, 5⟩, ⟨96 / 10, 10, 2⟩, ⟨48 / 10, 20, 2⟩, ⟨24 / 10, 50, 5⟩,
       ⟨12 / 10, 100, 5⟩, ⟨6 / 10, 250, 5⟩, ⟨3 / 10, 500, 5⟩, ⟨15 / 100, 1000, 2⟩] := by
  rfl

/-- Closed form of the finest-to-coarsest scan. -/
lemma getCurrentGridLevel_eq (z : ℚ) :
    getCurrentGridLevel z =
      if 18 ≤ z then ⟨18, 1, 1⟩
      else if 14 ≤ z then ⟨14, 5, 5⟩
      else if 96 / 10 ≤ z then ⟨96 / 10, 10, 2⟩
      else if 48 / 10 ≤ z then ⟨48 / 10, 20, 2⟩
      else if 24 / 10 ≤ z then ⟨24 / 10, 50, 5⟩
      else if 12 / 10 ≤ z then ⟨12 / 10, 100, 5⟩
      else if 6 / 10 ≤ z then ⟨6 / 10, 250, 5⟩
      else if 3 / 10 ≤ z then ⟨3 / 10, 500, 5⟩
      else ⟨15 / 100, 1000, 2⟩ := by
  unfold getCurrentGridLevel
  rw [grid_levels_reverse]
  simp only [findLevelFromFinest]
  split_ifs <;> rfl

set_option maxHeartbeats 1600000 in
/-- C7: the grid table spans intervals 1000 (coarsest entry) down to 1
(finest entry); whenever some level's threshold is at or below the current
zoom, the selected level is one of the table's levels, its own threshold is
at or below the zoom, and its interval is at least as fine as that of every
qualifying level; and selection is antitone in zoom: a larger zoom never
selects a coarser interval. -/
theorem gridLevel_monotone_finest :
    ((GRID_LEVELS.map (fun l => l.interval)).head? = some 1000
      ∧ (GRID_LEVELS.map (fun l => l.interval)).getLast? = some 1)
    ∧ (∀ z : ℚ, ∀ l ∈ GRID_LEVELS, l.zoom ≤ z →
        getCurrentGridLevel z ∈ GRID_LEVELS
        ∧ (getCurrentGridLevel z).zoom ≤ z
        ∧ (getCurrentGridLevel z).interval ≤ l.interval)
    ∧ (∀ z1 z2 : ℚ, z1 ≤ z2 →
        (getCurrentGridLevel z2).interval ≤ (getCurrentGridLevel z1).interval) := by
  refine ⟨⟨rfl, rfl⟩, ?_, ?_⟩
  · intro z l hl hz
    rw [getCurrentGridLevel_eq]
    fin_cases hl <;> dsimp only at hz ⊢ <;> split_ifs <;> dsimp only <;>
      first
        | exact ⟨by simp [GRID_LEVELS], by linarith, by norm_num⟩
        | (exfalso; linarith)
  · intro z1 z2 h
    rw [getCurrentGridLevel_eq, getCurrentGridLevel_eq]
    split_ifs <;> dsimp only <;> first | (exfalso; linarith) | norm_num

/-- Witness for C7 at concrete zooms: at zoom 1 the qualifying level with
interval 250 bounds the selection, and zoom 5 selects an interval no coarser
than zoom 1 does. -/
theorem gridLevel_monotone_finest_witness :
    (getCurrentGridLevel 1 ∈ GRID_LEVELS
      ∧ (getCurrentGridLevel 1).zoom ≤ 1
      ∧ (getCurrentGridLevel 1).interval ≤ 250)
    ∧ (getCurrentGridLevel 5).interval ≤ (getCurrentGridLevel 1).interval :=
  ⟨gridLevel_monotone_finest.2.1 1 ⟨6 / 10, 250, 5⟩ (by simp [GRID_LEVELS]) (by norm_num),
   gridLevel_monotone_finest.2.2 1 5 (by norm_num)⟩

/-! ## Import machinery: branch characterizations -/

lemma ObjectDimensions_eq_of_fields (a b : ObjectDimensions)
    (hx : a.x = b.x) (hy : a.y = b.y) (hz : a.z = b.z) : a = b := by
  cases a; cases b; simp_all

lemma freshObjectId_ne_empty (s : DesignState) : freshObjectId s ≠ "" := by
  intro h
  have hlen : (freshObjectId s).length = 0 := by rw [h]; rfl
  unfold freshObjectId at hlen
  rw [String.length_append] at hlen
  have h7 : ("object-" : String).length = 7 := by decide
  omega

lemma entryMatches_iff (e : ImportEntry) (d : FactoryObject) :
    entryMatches e d = true ↔
      d.name = e.name ∧ d.dimensions.x = e.dimensions.x
      ∧ d.dimensions.y = e.dimensions.y ∧ d.dimensions.z = e.dimensions.z := by
  simp only [entryMatches, Bool.and_eq_true, beq_iff_eq]
  tauto

/-- If the library is injective on (name, dimensions), the import's library
lookup for an entry carrying some member's name and dimensions finds exactly
that member. -/
lemma find?_entryMatches_self (lib : List FactoryObject) (d : FactoryObject)
    (e : ImportEntry)
    (hinj : ∀ d1 ∈ lib, ∀ d2 ∈ lib,
      d1.name = d2.name → d1.dimensions = d2.dimensions → d1 = d2)
    (hd : d ∈ lib)
    (hname : e.name = d.name) (hdims : e.dimensions = d.dimensions) :
    lib.find? (entryMatches e) = some d := by
  have hmatch : entryMatches e d = true := by
    rw [entryMatches_iff]
    exact ⟨hname.symm, by rw [hdims], by rw [hdims], by rw [hdims]⟩
  have hsome : (lib.find? (entryMatches e)).isSome := by
    rw [List.find?_isSome]
    exact ⟨d, hd, hmatch⟩
  obtain ⟨d', hd'⟩ := Option.isSome_iff_exists.mp hsome
  have hmem' := List.mem_of_find?_eq_some hd'
  have hp' := List.find?_some hd'
  rw [entryMatches_iff] at hp'
  have hdims' : d'.dimensions = d.dimensions := by
    apply ObjectDimensions_eq_of_fields
    · rw [hp'.2.1, hdims]
    · rw [hp'.2.2.1, hdims]
    · rw [hp'.2.2.2, hdims]
  have hde : d' = d := hinj d' hmem' d hd (by rw [hp'.1, hname]) hdims'
  rw [hd', hde]

lemma placeImportedEntry_some (s : DesignState) (oid : String) (e : ImportEntry)
    (p : Position3) (fid : String)
    (hp : e.position = some p) (hoid : oid ≠ "")
    (hact : s.activeFloorPlanId = some fid) :
    placeImportedEntry s oid e =
      { s with floorPlans := s.floorPlans.map (fun pl =>
          if pl.id == fid then
            { pl with objects := pl.objects ++ [⟨oid, p, e.rotation.getD 0⟩] }
          else pl) } := by
  unfold placeImportedEntry
  rw [hp]
  dsimp only
  rw [if_neg (by simp [hoid])]
  unfold importObject
  rw [hact]

lemma placeImportedEntry_nopos (s : DesignState) (oid : String) (e : ImportEntry)
    (hp : e.position = none) : placeImportedEntry s oid e = s := by
  unfold placeImportedEntry
  rw [hp]

/-- Found-in-library branch of the per-entry import step: the library is left
alone and one placement referencing the found definition's id is appended to
the active plan. -/
lemma processImportEntry_found (s : DesignState) (e : ImportEntry)
    (d : FactoryObject) (p : Position3) (fid : String)
    (hfind : s.objectLibrary.find? (entryMatches e) = some d)
    (hp : e.position = some p) (hdid : d.id ≠ "")
    (hact : s.activeFloorPlanId = some fid) :
    processImportEntry s e =
      { s with floorPlans := s.floorPlans.map (fun pl =>
          if pl.id == fid then
            { pl with objects := pl.objects ++ [⟨d.id, p, e.rotation.getD 0⟩] }
          else pl) } := by
  unfold processImportEntry
  rw [hfind]
  exact placeImportedEntry_some s d.id e p fid hp hdid hact

/-- Fresh-object branch of the per-entry import step: exactly one new library
entry is appended (with the entry's name, dimensions, and defaulted color)
and, when a position is present, one placement referencing the new entry's id
is appended to the active plan. -/
lemma processImportEntry_fresh (s : DesignState) (e : ImportEntry)
    (p : Position3) (fid : String)
    (hfind : s.objectLibrary.find? (entryMatches e) = none)
    (hp : e.position = some p)
    (hact : s.activeFloorPlanId = some fid) :
    processImportEntry s e =
      { s with
        objectLibrary := s.objectLibrary ++
          [⟨freshObjectId s, e.name, e.dimensions, jsColorOrDefault e.color⟩],
        ctr := s.ctr + 1,
        floorPlans := s.floorPlans.map (fun pl =>
          if pl.id == fid then
            { pl with objects := pl.objects ++
                [⟨freshObjectId s, p, e.rotation.getD 0⟩] }
          else pl) } := by
  have hm : entryMatches e
      (⟨freshObjectId s, e.name, e.dimensions, jsColorOrDefault e.color⟩ : FactoryObject)
      = true := by
    rw [entryMatches_iff]
    exact ⟨rfl, rfl, rfl, rfl⟩
  have hnew : (addObject s e.name e.dimensions (jsColorOrDefault e.color)).objectLibrary.find?
      (entryMatches e)
      = some ⟨freshObjectId s, e.name, e.dimensions, jsColorOrDefault e.color⟩ := by
    show (s.objectLibrary ++
        [(⟨freshObjectId s, e.name, e.dimensions, jsColorOrDefault e.color⟩ :
          FactoryObject)]).find? (entryMatches e) = _
    rw [List.find?_append, hfind, Option.none_or]
    rw [List.find?_cons_of_pos _ hm]
  unfold processImportEntry
  rw [hfind]
  dsimp only
  rw [hnew]
  dsimp only
  rw [placeImportedEntry_some (addObject s e.name e.dimensions (jsColorOrDefault e.color))
      (freshObjectId s) e p fid hp (freshObjectId_ne_empty s) hact]
  rfl

/-! ## C6: per-entry library dedup during import -/

/-- After the fresh-branch `addObject`, the re-lookup by name and dimensions
finds the just-appended definition (there was no earlier match). -/
lemma find?_addObject_self (s : DesignState) (e : ImportEntry)
    (hfind : s.objectLibrary.find? (entryMatches e) = none) :
    (addObject s e.name e.dimensions (jsColorOrDefault e.color)).objectLibrary.find?
      (entryMatches e)
      = some ⟨freshObjectId s, e.name, e.dimensions, jsColorOrDefault e.color⟩ := by
  have hm : entryMatches e
      (⟨freshObjectId s, e.name, e.dimensions, jsColorOrDefault e.color⟩ : FactoryObject)
      = true := by
    rw [entryMatches_iff]
    exact ⟨rfl, rfl, rfl, rfl⟩
  show (s.objectLibrary ++
      [(⟨freshObjectId s, e.name, e.dimensions, jsColorOrDefault e.color⟩ :
        FactoryObject)]).find? (entryMatches e) = _
  rw [List.find?_append, hfind, Option.none_or]
  rw [List.find?_cons_of_pos _ hm]

/-- Found-in-library branch for an entry without a position: nothing at all
changes. -/
lemma processImportEntry_found_nopos (s : DesignState) (e : ImportEntry)
    (d : FactoryObject)
    (hfind : s.objectLibrary.find? (entryMatches e) = some d)
    (hp : e.position = none) : processImportEntry s e = s := by
  unfold processImportEntry
  rw [hfind]
  exact placeImportedEntry_nopos s d.id e hp

/-- Fresh branch for an entry without a position: the library entry is still
registered but no placement is appended. -/
lemma processImportEntry_fresh_nopos (s : DesignState) (e : ImportEntry)
    (hfind : s.objectLibrary.find? (entryMatches e) = none)
    (hp : e.position = none) :
    processImportEntry s e
      = addObject s e.name e.dimensions (jsColorOrDefault e.color) := by
  unfold processImportEntry
  rw [hfind]
  dsimp only
  rw [find?_addObject_self s e hfind]
  dsimp only
  exact placeImportedEntry_nopos _ _ e hp

/-- C6 counterexample: an entry carrying the empty (falsy) color string is
registered with the DEFAULT color `#aaaaaa` (designStore.ts `obj.color ||
'#aaaaaa'`), not with the entry's own color, so the claim's "new library
entry with the entry's name, dimensions, and color" fails for such
entries. -/
theorem processImportEntry_registers_default_color :
    (processImportEntry
        ⟨[defaultMill, defaultWall], [⟨"fp1", "P", []⟩], some "fp1", testGen, 0⟩
        ⟨"Box", ⟨2, 2, 1⟩, some "", some ⟨0, 0, 0⟩, some 0⟩).objectLibrary.getLast?
      = some ⟨"object-0", "Box", ⟨2, 2, 1⟩, "#aaaaaa"⟩
    ∧ (⟨"Box", ⟨2, 2, 1⟩, some "", some ⟨0, 0, 0⟩, some 0⟩ : ImportEntry).color
      = some ""
    ∧ ("#aaaaaa" : String) ≠ "" :=
  ⟨by decide, rfl, by decide⟩

/-- C6 amended: for EVERY entry processed during import (with the new plan
active and library ids nonempty): when the library already holds a definition
with the entry's name and x, y, z dimensions, the library is left unchanged
and any appended placement references the first such definition's id;
otherwise exactly one new library entry is registered, carrying the entry's
name and dimensions and the entry's color defaulted through
`obj.color || '#aaaaaa'`.  A placement referencing the chosen id is appended
exactly when the entry has a position; a position-less entry still registers
the library entry. -/
theorem processImportEntry_dedup (s : DesignState) (e : ImportEntry)
    (fid : String)
    (hact : s.activeFloorPlanId = some fid)
    (hids : ∀ d ∈ s.objectLibrary, d.id ≠ "") :
    (processImportEntry s e).objectLibrary
      = (match s.objectLibrary.find? (entryMatches e) with
         | some _ => s.objectLibrary
         | none => s.objectLibrary ++
             [⟨freshObjectId s, e.name, e.dimensions, jsColorOrDefault e.color⟩])
    ∧ (processImportEntry s e).floorPlans
      = (match e.position with
         | none => s.floorPlans
         | some p => s.floorPlans.map (fun pl =>
             if pl.id == fid then
               { pl with objects := pl.objects ++
                   [⟨(match s.objectLibrary.find? (entryMatches e) with
                      | some d => d.id
                      | none => freshObjectId s), p, e.rotation.getD 0⟩] }
             else pl)) := by
  cases hfind : s.objectLibrary.find? (entryMatches e) with
  | some d =>
      cases hp : e.position with
      | none =>
          rw [processImportEntry_found_nopos s e d hfind hp]
          exact ⟨rfl, rfl⟩
      | some p =>
          have hdid : d.id ≠ "" := hids d (List.mem_of_find?_eq_some hfind)
          rw [processImportEntry_found s e d p fid hfind hp hdid hact]
          exact ⟨rfl, rfl⟩
  | none =>
      cases hp : e.position with
      | none =>
          rw [processImportEntry_fresh_nopos s e hfind hp]
          exact ⟨rfl, rfl⟩
      | some p =>
          rw [processImportEntry_fresh s e p fid hfind hp hact]
          exact ⟨rfl, rfl⟩

/-- Witness for the amended C6: importing a "Mill" entry whose name and
dimensions match the default library Mill reuses `default-mill` and adds
nothing to the library. -/
theorem processImportEntry_dedup_witness :
    (processImportEntry
        ⟨[defaultMill, defaultWall], [⟨"fp1", "P", []⟩], some "fp1", testGen, 0⟩
        ⟨"Mill", ⟨4, 4, 8⟩, some "#ff0000", some ⟨1, 2, 0⟩, some 90⟩).objectLibrary
      = [defaultMill, defaultWall]
    ∧ (processImportEntry
        ⟨[defaultMill, defaultWall], [⟨"fp1", "P", []⟩], some "fp1", testGen, 0⟩
        ⟨"Mill", ⟨4, 4, 8⟩, some "#ff0000", some ⟨1, 2, 0⟩, some 90⟩).floorPlans
      = [⟨"fp1", "P", [⟨"default-mill", ⟨1, 2, 0⟩, 90⟩]⟩] := by
  have h := processImportEntry_dedup
      ⟨[defaultMill, defaultWall], [⟨"fp1", "P", []⟩], some "fp1", testGen, 0⟩
      ⟨"Mill", ⟨4, 4, 8⟩, some "#ff0000", some ⟨1, 2, 0⟩, some 90⟩
      "fp1" rfl (by decide)
  exact ⟨h.1.trans (by decide), h.2.trans (by decide)⟩

/-! ## C3: import does not skip colliding placements -/

/-- C3: importing a plan whose second entry's footprint coincides with (and
so has positive-area overlap with) the first entry's already-placed footprint
appends BOTH placements to the new floorplan: the import performs no
collision check at all, so the colliding entry is not skipped. -/
theorem import_places_colliding_entries :
    ((importFloorPlanFromJSON (initialDesignState testGen)
        (some ⟨some "F",
          some [⟨"Box", ⟨2, 2, 1⟩, some "#111111", some ⟨0, 0, 0⟩, some 0⟩,
                ⟨"Box", ⟨2, 2, 1⟩, some "#222222", some ⟨0, 0, 0⟩, some 0⟩]⟩)).floorPlans.map
        (fun pl => pl.objects))
      = [[⟨"object-1", ⟨0, 0, 0⟩, 0⟩, ⟨"object-1", ⟨0, 0, 0⟩, 0⟩]]
    ∧ SpecOverlap (specFootprint (0, 0) ⟨2, 2, 1⟩ 0) (specFootprint (0, 0) ⟨2, 2, 1⟩ 0) :=
  ⟨by decide, by decide⟩

/-! ## C2: export / import round-trip -/

/-- C2 counterexample: with two library definitions sharing name "A" and
dimensions 1×1×1 but different colors, exporting a plan that places the blue
one ("a2") and re-importing re-binds the placement to the red one ("a1", the
first name+dimensions match), so the re-imported placement's referenced
definition has color "red", not the original "blue". -/
theorem roundtrip_rebinds_to_first_match :
    (((importFloorPlanFromJSON
        ⟨[⟨"a1", "A", ⟨1, 1, 1⟩, "red"⟩, ⟨"a2", "A", ⟨1, 1, 1⟩, "blue"⟩],
          [⟨"p", "P", [⟨"a2", ⟨0, 0, 0⟩, 0⟩]⟩], none, testGen, 0⟩
        (exportFloorPlan
          ⟨[⟨"a1", "A", ⟨1, 1, 1⟩, "red"⟩, ⟨"a2", "A", ⟨1, 1, 1⟩, "blue"⟩],
            [⟨"p", "P", [⟨"a2", ⟨0, 0, 0⟩, 0⟩]⟩], none, testGen, 0⟩
          "p")).floorPlans.getLast?).map (fun pl => pl.objects))
      = some [⟨"a1", ⟨0, 0, 0⟩, 0⟩]
    ∧ (importFloorPlanFromJSON
        ⟨[⟨"a1", "A", ⟨1, 1, 1⟩, "red"⟩, ⟨"a2", "A", ⟨1, 1, 1⟩, "blue"⟩],
          [⟨"p", "P", [⟨"a2", ⟨0, 0, 0⟩, 0⟩]⟩], none, testGen, 0⟩
        (exportFloorPlan
          ⟨[⟨"a1", "A", ⟨1, 1, 1⟩, "red"⟩, ⟨"a2", "A", ⟨1, 1, 1⟩, "blue"⟩],
            [⟨"p", "P", [⟨"a2", ⟨0, 0, 0⟩, 0⟩]⟩], none, testGen, 0⟩
          "p")).objectLibrary
      = [⟨"a1", "A", ⟨1, 1, 1⟩, "red"⟩, ⟨"a2", "A", ⟨1, 1, 1⟩, "blue"⟩]
    ∧ ([(⟨"a1", "A", ⟨1, 1, 1⟩, "red"⟩ : FactoryObject),
        ⟨"a2", "A", ⟨1, 1, 1⟩, "blue"⟩].find? (fun o => o.id == "a1")).map
        (fun o => o.color) = some "red"
    ∧ ([(⟨"a1", "A", ⟨1, 1, 1⟩, "red"⟩ : FactoryObject),
        ⟨"a2", "A", ⟨1, 1, 1⟩, "blue"⟩].find? (fun o => o.id == "a2")).map
        (fun o => o.color) = some "blue"
    ∧ ("red" : String) ≠ "blue" :=
  ⟨by decide, by decide, by decide, by decide, by decide⟩

lemma map_appendIf_nil (plans : List FloorPlan) (fid : String) :
    plans.map (fun pl =>
      if pl.id == fid then { pl with objects := pl.objects ++ ([] : List PlacedObject) }
      else pl) = plans := by
  apply List.map_id''
  intro pl
  simp

lemma map_appendIf_not_mem (plans : List FloorPlan) (fid : String)
    (qs : List PlacedObject) (h : ∀ pl ∈ plans, pl.id ≠ fid) :
    plans.map (fun pl =>
      if pl.id == fid then { pl with objects := pl.objects ++ qs } else pl) = plans := by
  induction plans with
  | nil => rfl
  | cons a l ih =>
      rw [List.map_cons, if_neg (by simp [h a (List.mem_cons_self a l)]),
        ih (fun pl hpl => h pl (List.mem_cons_of_mem a hpl))]

lemma map_appendIf_comp (plans : List FloorPlan) (fid : String) (q : PlacedObject)
    (qs : List PlacedObject) :
    (plans.map (fun pl =>
        if pl.id == fid then { pl with objects := pl.objects ++ [q] } else pl)).map
      (fun pl => if pl.id == fid then { pl with objects := pl.objects ++ qs } else pl)
      = plans.map (fun pl =>
          if pl.id == fid then { pl with objects := pl.objects ++ q :: qs } else pl) := by
  rw [List.map_map]
  apply List.map_congr_left
  intro pl _
  by_cases h : pl.id == fid
  · simp [Function.comp, h, List.append_assoc]
  · simp [Function.comp, h]

/-- Folding the per-entry import step over the exported entries of a list of
resolvable placements, against an unchanged injective library, appends
exactly the original placements to the active plan and touches nothing
else. -/
lemma foldl_export_entries (ps : List PlacedObject) :
    ∀ (lib : List FactoryObject) (plans : List FloorPlan) (fid : String)
      (gen : Nat → String) (ctr : Nat),
    (∀ d1 ∈ lib, ∀ d2 ∈ lib, d1.name = d2.name → d1.dimensions = d2.dimensions → d1 = d2) →
    (∀ p ∈ ps, ∃ d, lib.find? (fun o => o.id == p.objectId) = some d ∧ d.id ≠ "") →
    (ps.filterMap (exportEntry lib)).foldl processImportEntry
        ⟨lib, plans, some fid, gen, ctr⟩
      = ⟨lib,
         plans.map (fun pl =>
           if pl.id == fid then { pl with objects := pl.objects ++ ps } else pl),
         some fid, gen, ctr⟩ := by
  induction ps with
  | nil =>
      intro lib plans fid gen ctr hinj hres
      rw [List.filterMap_nil, List.foldl_nil, map_appendIf_nil]
  | cons p ps ih =>
      intro lib plans fid gen ctr hinj hres
      obtain ⟨d, hd, hdne⟩ := hres p (List.mem_cons_self p ps)
      have hdmem : d ∈ lib := List.mem_of_find?_eq_some hd
      have hdid : d.id = p.objectId := by
        have hb := List.find?_some hd
        simpa using hb
      have hee : exportEntry lib p
          = some ⟨d.name, d.dimensions, some d.color, some p.position, some p.rotation⟩ := by
        unfold exportEntry
        rw [hd]
        rfl
      have hfind : (⟨lib, plans, some fid, gen, ctr⟩ : DesignState).objectLibrary.find?
          (entryMatches ⟨d.name, d.dimensions, some d.color, some p.position,
            some p.rotation⟩) = some d :=
        find?_entryMatches_self lib d _ hinj hdmem rfl rfl
      rw [List.filterMap_cons_some hee, List.foldl_cons,
        processImportEntry_found ⟨lib, plans, some fid, gen, ctr⟩ _ d p.position fid
          hfind rfl hdne rfl]
      dsimp only
      simp only [Option.getD_some]
      rw [hdid]
      rw [ih lib _ fid gen ctr hinj (fun q hq => hres q (List.mem_cons_of_mem p hq))]
      rw [map_appendIf_comp]

/-- C2 amended: provided the plan's name is nonempty, every placement's
objectId resolves to a library definition with a nonempty id, no two library
definitions share both name and dimensions, and the generated plan id is
fresh, then export followed by import appends one new floorplan whose placed
objects are EXACTLY the original ones (same object ids, positions, and
rotations — hence same referenced names, dimensions, and colors), makes it
active, and leaves the library and the existing plans unchanged. -/
theorem export_import_roundtrip (s : DesignState) (pid : String) (plan : FloorPlan)
    (hfindp : s.floorPlans.find? (fun pl => pl.id == pid) = some plan)
    (hname : plan.name ≠ "")
    (hres : ∀ p ∈ plan.objects,
      ∃ d, s.objectLibrary.find? (fun o => o.id == p.objectId) = some d ∧ d.id ≠ "")
    (hinj : ∀ d1 ∈ s.objectLibrary, ∀ d2 ∈ s.objectLibrary,
      d1.name = d2.name → d1.dimensions = d2.dimensions → d1 = d2)
    (hfresh : ∀ pl ∈ s.floorPlans, pl.id ≠ freshFloorPlanId s) :
    importFloorPlanFromJSON s (exportFloorPlan s pid)
      = { s with
          floorPlans := s.floorPlans ++
            [⟨freshFloorPlanId s, plan.name, plan.objects⟩],
          activeFloorPlanId := some (freshFloorPlanId s),
          ctr := s.ctr + 1 } := by
  obtain ⟨lib, plans, act, gen, ctr⟩ := s
  have hexp : exportFloorPlan ⟨lib, plans, act, gen, ctr⟩ pid
      = some ⟨some plan.name, some (plan.objects.filterMap (exportEntry lib))⟩ := by
    unfold exportFloorPlan
    dsimp only
    rw [hfindp]
    rfl
  rw [hexp]
  unfold importFloorPlanFromJSON
  dsimp only
  rw [if_pos (show jsTruthyName (some plan.name) = true by simp [jsTruthyName, hname])]
  simp only [addFloorPlan, freshFloorPlanId, Option.getD_some]
  refine (foldl_export_entries plan.objects lib
      (plans ++ [⟨"floorplan-" ++ gen ctr, plan.name, []⟩])
      ("floorplan-" ++ gen ctr) gen (ctr + 1) hinj hres).trans ?_
  rw [List.map_append,
    map_appendIf_not_mem plans ("floorplan-" ++ gen ctr) plan.objects hfresh]
  simp

/-- Witness for the amended C2 at a concrete store: exporting and
re-importing a plan that places the default Mill reproduces its placements
exactly in the new plan. -/
theorem export_import_roundtrip_witness :
    importFloorPlanFromJSON
        ⟨[defaultMill], [⟨"fp1", "P", [⟨"default-mill", ⟨1, 2, 0⟩, 90⟩]⟩], none, testGen, 0⟩
        (exportFloorPlan
          ⟨[defaultMill], [⟨"fp1", "P", [⟨"default-mill", ⟨1, 2, 0⟩, 90⟩]⟩], none,
           testGen, 0⟩ "fp1")
      = ⟨[defaultMill],
         [⟨"fp1", "P", [⟨"default-mill", ⟨1, 2, 0⟩, 90⟩]⟩,
          ⟨"floorplan-0", "P", [⟨"default-mill", ⟨1, 2, 0⟩, 90⟩]⟩],
         some "floorplan-0", testGen, 1⟩ := by
  have h := export_import_roundtrip
      ⟨[defaultMill], [⟨"fp1", "P", [⟨"default-mill", ⟨1, 2, 0⟩, 90⟩]⟩], none, testGen, 0⟩
      "fp1" ⟨"fp1", "P", [⟨"default-mill", ⟨1, 2, 0⟩, 90⟩]⟩
      (by decide) (by decide)
      (by
        intro p hp
        have hp' : p = ⟨"default-mill", ⟨1, 2, 0⟩, 90⟩ := by
          simpa using hp
        subst hp'
        exact ⟨defaultMill, by decide, by decide⟩)
      (by decide) (by decide)
  exact h

end FFD
